import Mathlib

/-!
Verification of the Currency-Converter repository's data path:
the pure conversion arithmetic (`CurrencyConverter.convert_currency` in
`currency_converter.py`), the fetch-with-cache-fallback orchestration
(`ExchangeRatesApi.fetch_exchange_rates` in `exchange_rates_api.py`),
the history append (`ExchangeRatesApi._append_history_snapshot`), and the
lenient history read (`ExchangeRatesApi.get_history`).

Python dictionaries of currency rates are embedded as association lists
from currency codes (strings) to rational numbers; Python exceptions are
embedded as `Except` errors.
-/

/-- A rate table: Python dict mapping a currency code to its rate against
the base currency, embedded as an association list. -/
abbrev RateTable := List (String × ℚ)

/-- The exceptions `convert_currency` can raise. -/
inductive ConvError where
  | keyError (msg : String)
  | zeroDivisionError (msg : String)
  deriving DecidableEq, Repr

/-- Embedding of `CurrencyConverter.convert_currency`
(`currency_converter.py`, lines 573-588): raise `KeyError` if either
currency is missing from `exchange_rates`, raise `ZeroDivisionError` if
the source rate is zero, otherwise return
`amount * (target_rate / source_rate)`. -/
def convert_currency (exchange_rates : RateTable) (amount : ℚ)
    (source_currency target_currency : String) : Except ConvError ℚ :=
  match exchange_rates.lookup source_currency,
        exchange_rates.lookup target_currency with
  | some source_rate, some target_rate =>
      if source_rate = 0 then
        .error (.zeroDivisionError "Source currency rate is zero.")
      else
        .ok (amount * (target_rate / source_rate))
  | _, _ =>
      .error (.keyError "Missing exchange rate for one of the currencies.")

/-- One entry of the history file: `{"date": ..., "rates": ...}`. -/
structure HistoryEntry where
  date : String
  rates : RateTable
  deriving DecidableEq, Repr

/-- Embedding of `ExchangeRatesApi._append_history_snapshot`
(`exchange_rates_api.py`, lines 134-158), acting on the in-memory history
list: if the history is nonempty and its last entry has the same date,
replace that last entry; otherwise append a new entry. -/
def appendHistorySnapshot (history : List HistoryEntry) (date : String)
    (rates : RateTable) : List HistoryEntry :=
  let entry : HistoryEntry := ⟨date, rates⟩
  match history.getLast? with
  | some last =>
      if last.date == date then history.dropLast ++ [entry]
      else history ++ [entry]
  | none => history ++ [entry]

/-- The outcomes of the two effectful collaborators of
`fetch_exchange_rates`: the live API request (including extraction of
rates and date) and the cache read (including the same extraction).
Each either succeeds with a rate table and date or fails with an
exception message. -/
structure FetchEnv where
  apiResult : Except String (RateTable × String)
  cacheResult : Except String (RateTable × String)

/-- Embedding of `ExchangeRatesApi.fetch_exchange_rates`
(`exchange_rates_api.py`, lines 44-84): try the API first; on success
append a history snapshot and return the rates and date.  On API failure
try the cache; on cache success return its rates and date without
touching history.  If both fail, raise a `RuntimeError` naming both
underlying errors.  Returns the result together with the new history. -/
def fetch_exchange_rates (env : FetchEnv) (history : List HistoryEntry) :
    Except String (RateTable × String) × List HistoryEntry :=
  match env.apiResult with
  | .ok (rates, date) =>
      (.ok (rates, date), appendHistorySnapshot history date rates)
  | .error api_exc =>
      match env.cacheResult with
      | .ok (rates, date) => (.ok (rates, date), history)
      | .error cache_exc =>
          (.error ("Cannot load exchange rates from API nor cache (api error: "
              ++ api_exc ++ ", cache error: " ++ cache_exc ++ ")"),
           history)

/-- The exceptions that can arise while reading the history file, and
that `get_history` catches. -/
inductive PyExc where
  | osError
  | jsonDecodeError
  | valueError
  | typeError
  deriving DecidableEq, Repr

/-- The possible states of the history file relevant to reading it. -/
inductive HistoryFileState where
  | absent
  | unreadable
  | invalidJson
  | notAList
  | valid (entries : List HistoryEntry)
  deriving DecidableEq

/-- Embedding of `ExchangeRatesApi._read_history`
(`exchange_rates_api.py`, lines 160-166): opening a missing or unreadable
file raises `OSError`, `json.load` on malformed contents raises
`JSONDecodeError`, contents that are not a list raise `ValueError`;
otherwise the entry list is returned. -/
def read_history (fs : HistoryFileState) : Except PyExc (List HistoryEntry) :=
  match fs with
  | .absent => .error .osError
  | .unreadable => .error .osError
  | .invalidJson => .error .jsonDecodeError
  | .notAList => .error .valueError
  | .valid entries => .ok entries

/-- Embedding of `ExchangeRatesApi.get_history`
(`exchange_rates_api.py`, lines 168-176): return `_read_history()`,
catching `OSError`, `JSONDecodeError`, `ValueError` and `TypeError` by
returning the empty list. -/
def get_history (fs : HistoryFileState) : Except PyExc (List HistoryEntry) :=
  match read_history fs with
  | .ok entries => .ok entries
  | .error .osError => .ok []
  | .error .jsonDecodeError => .ok []
  | .error .valueError => .ok []
  | .error .typeError => .ok []

/-- A valid rate table in the sense of the spec's data model: the base
currency maps to 1 and every rate is positive. -/
def validRateTable (R : RateTable) (B : String) : Prop :=
  R.lookup B = some 1 ∧ ∀ p ∈ R, 0 < p.2

/-- Iterated history appends, used to state properties of appending a
whole sequence of snapshots. -/
def appendAll (history : List HistoryEntry)
    (snaps : List (String × RateTable)) : List HistoryEntry :=
  snaps.foldl (fun h p => appendHistorySnapshot h p.1 p.2) history

/-- A successful lookup in a valid rate table yields a positive rate. -/
theorem lookup_pos_of_valid {R : RateTable} {B : String}
    (hval : validRateTable R B) {c : String} {r : ℚ}
    (h : R.lookup c = some r) : 0 < r := by
  obtain ⟨l₁, l₂, rfl, -⟩ := List.lookup_eq_some_iff.mp h
  exact hval.2 (c, r) (by simp)

/-- Claim C1: with both currencies present and a nonzero source rate,
`convert_currency` returns `amount * (target_rate / source_rate)`; in
particular converting 100 USD to EUR under rates USD ↦ 1, EUR ↦ 0.92
returns 92. -/
theorem convert_currency_formula (R : RateTable) (a : ℚ)
    (src dst : String) (rs rd : ℚ)
    (hs : R.lookup src = some rs) (hd : R.lookup dst = some rd)
    (hrs : rs ≠ 0) :
    convert_currency R a src dst = .ok (a * (rd / rs)) ∧
    convert_currency [("USD", 1), ("EUR", 92/100)] 100 "USD" "EUR" =
      .ok 92 := by
  constructor
  · simp [convert_currency, hs, hd, hrs]
  · simp only [convert_currency, List.lookup_cons, String.reduceBEq]
    norm_num

/-- Witness for C1 at the spec's concrete scenario. -/
theorem convert_currency_formula_witness :
    convert_currency [("USD", 1), ("EUR", 92/100)] 100 "USD" "EUR" =
      .ok (100 * ((92/100) / 1)) ∧
    convert_currency [("USD", 1), ("EUR", 92/100)] 100 "USD" "EUR" =
      .ok 92 :=
  convert_currency_formula [("USD", 1), ("EUR", 92/100)] 100 "USD" "EUR"
    1 (92/100) (by simp [List.lookup_cons, String.reduceBEq])
    (by simp [List.lookup_cons, String.reduceBEq]) (by norm_num)

/-- Claim C3: if either currency is absent from the rate table,
`convert_currency` raises `KeyError` and returns no value. -/
theorem convert_currency_missing (R : RateTable) (a : ℚ)
    (src dst : String)
    (h : R.lookup src = none ∨ R.lookup dst = none) :
    convert_currency R a src dst =
      .error (.keyError "Missing exchange rate for one of the currencies.") := by
  rcases h with h | h
  · simp [convert_currency, h]
  · cases hs : R.lookup src <;> simp [convert_currency, hs, h]

/-- Witness for C3: an empty table has no rates at all. -/
theorem convert_currency_missing_witness :
    convert_currency [] 5 "USD" "EUR" =
      .error (.keyError "Missing exchange rate for one of the currencies.") :=
  convert_currency_missing [] 5 "USD" "EUR" (Or.inl (by decide))

/-- Claim C4: with both currencies present and a source rate of zero,
`convert_currency` raises `ZeroDivisionError` rather than returning an
infinity. -/
theorem convert_currency_zero_source (R : RateTable) (a : ℚ)
    (src dst : String) (rd : ℚ)
    (hs : R.lookup src = some 0) (hd : R.lookup dst = some rd) :
    convert_currency R a src dst =
      .error (.zeroDivisionError "Source currency rate is zero.") := by
  simp [convert_currency, hs, hd]

/-- Witness for C4 on a concrete table with a zero source rate. -/
theorem convert_currency_zero_source_witness :
    convert_currency [("USD", 0), ("EUR", 92/100)] 5 "USD" "EUR" =
      .error (.zeroDivisionError "Source currency rate is zero.") :=
  convert_currency_zero_source [("USD", 0), ("EUR", 92/100)] 5 "USD" "EUR"
    (92/100) (by simp [List.lookup_cons, String.reduceBEq])
    (by simp [List.lookup_cons, String.reduceBEq])

/-- Claim C10: the zero guard checks only the source rate: with a
nonzero source rate and a zero target rate, `convert_currency` does not
raise and returns 0. -/
theorem convert_currency_zero_target (R : RateTable) (a : ℚ)
    (src dst : String) (rs : ℚ)
    (hs : R.lookup src = some rs) (hrs : rs ≠ 0)
    (hd : R.lookup dst = some 0) :
    convert_currency R a src dst = .ok 0 := by
  simp [convert_currency, hs, hd, hrs]

/-- Witness for C10 on a concrete table with a zero target rate. -/
theorem convert_currency_zero_target_witness :
    convert_currency [("USD", 1), ("XXX", 0)] 5 "USD" "XXX" = .ok 0 :=
  convert_currency_zero_target [("USD", 1), ("XXX", 0)] 5 "USD" "XXX" 1
    (by simp [List.lookup_cons, String.reduceBEq]) (by norm_num)
    (by simp [List.lookup_cons, String.reduceBEq])

/-- Claim C5: over a valid rate table (base rate 1, all rates positive),
conversion followed by the reverse conversion returns the original
amount exactly, and converting a currency to itself is the identity. -/
theorem convert_currency_roundtrip (R : RateTable) (B c1 c2 c : String)
    (a r1 r2 rc : ℚ) (hval : validRateTable R B)
    (h1 : R.lookup c1 = some r1) (h2 : R.lookup c2 = some r2)
    (hc : R.lookup c = some rc) :
    ((convert_currency R a c1 c2).bind
        fun amt => convert_currency R amt c2 c1) = .ok a ∧
    convert_currency R a c c = .ok a := by
  have hr1 : r1 ≠ 0 := (lookup_pos_of_valid hval h1).ne'
  have hr2 : r2 ≠ 0 := (lookup_pos_of_valid hval h2).ne'
  have hrc : rc ≠ 0 := (lookup_pos_of_valid hval hc).ne'
  have conv12 : convert_currency R a c1 c2 = .ok (a * (r2 / r1)) := by
    simp [convert_currency, h1, h2, hr1]
  have conv21 : convert_currency R (a * (r2 / r1)) c2 c1 =
      .ok (a * (r2 / r1) * (r1 / r2)) := by
    simp [convert_currency, h1, h2, hr2]
  have convcc : convert_currency R a c c = .ok (a * (rc / rc)) := by
    simp [convert_currency, hc, hrc]
  constructor
  · rw [conv12]
    show convert_currency R (a * (r2 / r1)) c2 c1 = .ok a
    rw [conv21]
    congr 1
    field_simp
  · rw [convcc, div_self hrc, mul_one]

/-- Witness for C5 on the spec's USD/EUR table with amount 7. -/
theorem convert_currency_roundtrip_witness :
    validRateTable [("USD", 1), ("EUR", 92/100)] "USD" ∧
    (((convert_currency [("USD", 1), ("EUR", 92/100)] 7 "USD" "EUR").bind
        fun amt =>
          convert_currency [("USD", 1), ("EUR", 92/100)] amt "EUR" "USD") =
        .ok 7 ∧
      convert_currency [("USD", 1), ("EUR", 92/100)] 7 "EUR" "EUR" =
        .ok 7) := by
  have hval : validRateTable [("USD", (1 : ℚ)), ("EUR", 92/100)] "USD" := by
    constructor
    · simp [List.lookup_cons, String.reduceBEq]
    · intro p hp
      simp only [List.mem_cons, List.not_mem_nil, or_false] at hp
      rcases hp with rfl | rfl <;> norm_num
  exact ⟨hval,
    convert_currency_roundtrip [("USD", 1), ("EUR", 92/100)] "USD" "USD"
      "EUR" "EUR" 7 1 (92/100) (92/100) hval
      (by simp [List.lookup_cons, String.reduceBEq])
      (by simp [List.lookup_cons, String.reduceBEq])
      (by simp [List.lookup_cons, String.reduceBEq])⟩

/-- Claim C6: appending twice with the same date label from an empty
history yields a single entry holding the second table; in general the
append overwrites the last entry exactly when its date equals the new
label, and otherwise appends. -/
theorem append_history_tail_overwrite (d : String) (r1 r2 : RateTable) :
    appendHistorySnapshot (appendHistorySnapshot [] d r1) d r2 = [⟨d, r2⟩] ∧
    ∀ (history : List HistoryEntry) (rates : RateTable),
      appendHistorySnapshot history d rates =
        if history.getLast?.map HistoryEntry.date = some d then
          history.dropLast ++ [⟨d, rates⟩]
        else history ++ [⟨d, rates⟩] := by
  have gen : ∀ (history : List HistoryEntry) (rates : RateTable),
      appendHistorySnapshot history d rates =
        if history.getLast?.map HistoryEntry.date = some d then
          history.dropLast ++ [⟨d, rates⟩]
        else history ++ [⟨d, rates⟩] := by
    intro history rates
    cases hl : history.getLast? with
    | none => simp [appendHistorySnapshot, hl]
    | some last =>
        by_cases hdate : last.date = d
        · simp [appendHistorySnapshot, hl, hdate]
        · simp [appendHistorySnapshot, hl, hdate]
  exact ⟨by simp [gen], gen⟩

/-- Iterated appends with strictly ascending fresh dates just append:
the resulting history is the old history followed by the new entries. -/
theorem appendAll_chain_eq (snaps : List (String × RateTable)) :
    ∀ history : List HistoryEntry,
      ((history.map HistoryEntry.date ++ snaps.map Prod.fst).Chain' (· < ·)) →
      appendAll history snaps =
        history ++ snaps.map fun p => ⟨p.1, p.2⟩ := by
  induction snaps with
  | nil => intro history _; simp [appendAll]
  | cons p rest ih =>
      intro history hch
      rw [List.map_cons] at hch
      have hstep : appendHistorySnapshot history p.1 p.2 =
          history ++ [⟨p.1, p.2⟩] := by
        cases hl : history.getLast? with
        | none => simp [appendHistorySnapshot, hl]
        | some last =>
            have hmem : (history.map HistoryEntry.date).getLast? =
                some last.date := by
              simp [List.getLast?_map, hl]
            have hlt : last.date < p.1 := by
              refine (List.chain'_append.mp hch).2.2 last.date ?_ p.1 ?_
              · rw [Option.mem_def, hmem]
              · rw [Option.mem_def, List.head?_cons]
            simp [appendHistorySnapshot, hl, ne_of_lt hlt]
      have hch' : (((history ++ [(⟨p.1, p.2⟩ : HistoryEntry)]).map
          HistoryEntry.date) ++ rest.map Prod.fst).Chain' (· < ·) := by
        rw [List.map_append, List.append_assoc, List.map_cons, List.map_nil,
          List.singleton_append]
        exact hch
      have hfold : appendAll history (p :: rest) =
          appendAll (history ++ [⟨p.1, p.2⟩]) rest := by
        simp [appendAll, hstep]
      rw [hfold, ih _ hch']
      simp

/-- Claim C7: starting from an empty history, appending snapshots with
pairwise-distinct ascending date labels yields a history of the same
length holding exactly those snapshots in order. -/
theorem append_history_distinct_ascending (snaps : List (String × RateTable))
    (hasc : (snaps.map Prod.fst).Chain' (· < ·)) :
    appendAll [] snaps = snaps.map (fun p => ⟨p.1, p.2⟩) ∧
    (appendAll [] snaps).length = snaps.length := by
  have h := appendAll_chain_eq snaps []
    (by rw [List.map_nil, List.nil_append]; exact hasc)
  simp only [List.nil_append] at h
  exact ⟨h, by rw [h]; simp⟩

/-- Witness for C7 with two ascending distinct date labels. -/
theorem append_history_distinct_ascending_witness :
    (([("a", ([] : RateTable)), ("b", [])].map Prod.fst).Chain' (· < ·)) ∧
    (appendAll [] [("a", ([] : RateTable)), ("b", [])] =
        [⟨"a", []⟩, ⟨"b", []⟩] ∧
      (appendAll [] [("a", ([] : RateTable)), ("b", [])]).length = 2) := by
  have hasc : (([("a", ([] : RateTable)), ("b", [])].map Prod.fst).Chain'
      (· < ·)) := by
    simp only [List.map_cons, List.map_nil, List.chain'_cons,
      List.chain'_singleton, and_true]
    rw [String.lt_iff_toList_lt]
    decide
  exact ⟨hasc, append_history_distinct_ascending _ hasc⟩

/-- Claim C2: the API fetch is attempted first and its success is
returned as-is; on API failure with cache success, the cached rates and
date are returned without raising; when both fail, the single raised
error names both the API failure and the cache failure. -/
theorem fetch_exchange_rates_fallback (rates : RateTable) (date : String)
    (cacheRes : Except String (RateTable × String))
    (api_exc cache_exc : String) (history : List HistoryEntry) :
    (fetch_exchange_rates ⟨.ok (rates, date), cacheRes⟩ history).1 =
      .ok (rates, date) ∧
    (fetch_exchange_rates
        ⟨.error api_exc, .ok (rates, date)⟩ history).1 =
      .ok (rates, date) ∧
    (fetch_exchange_rates ⟨.error api_exc, .error cache_exc⟩ history).1 =
      .error ("Cannot load exchange rates from API nor cache (api error: "
          ++ api_exc ++ ", cache error: " ++ cache_exc ++ ")") := by
  refine ⟨?_, ?_, ?_⟩ <;> simp [fetch_exchange_rates]

/-- Claim C9: on the cache-fallback path (API failed, cache succeeded)
the history is left unchanged: no snapshot is appended. -/
theorem fetch_fallback_history_unchanged (api_exc : String)
    (rates : RateTable) (date : String) (history : List HistoryEntry) :
    (fetch_exchange_rates
        ⟨.error api_exc, .ok (rates, date)⟩ history).2 = history := by
  simp [fetch_exchange_rates]

/-- Claim C8: `get_history` never raises: on every file state it
returns `.ok`, and on an absent, unreadable, malformed-JSON or
non-list file it returns the empty list. -/
theorem get_history_never_raises :
    (∀ fs, ∃ entries, get_history fs = .ok entries) ∧
    get_history .absent = .ok [] ∧
    get_history .unreadable = .ok [] ∧
    get_history .invalidJson = .ok [] ∧
    get_history .notAList = .ok [] := by
  refine ⟨fun fs => ?_, rfl, rfl, rfl, rfl⟩
  cases fs <;> exact ⟨_, rfl⟩
